import Mathlib

set_option linter.unusedSectionVars false
set_option linter.unusedVariables false

/-!
Shallow embedding of `pyclustering/cluster/kmedians.py` (class `kmedians`):
the K-Medians clustering engine with its assignment step (`__update_clusters`),
update step (`__update_medians`) and convergence loop (`process`), together
with models of the two external collaborators from `pyclustering.support`.

Points are lists over a linear ordered commutative ring (an idealization of the Python floats, so that theorems cover rational and real coordinates alike); the engine state is a structure mirroring the
four instance attributes; the unbounded `while` loop of `process` is embedded
with explicit fuel, returning `none` when the fuel runs out; exceptions are
embedded with `Except`, the error value carrying the engine state at raise
time.
-/

namespace PyClustering

variable {α : Type} [LinearOrderedCommRing α]

abbrev Point (α : Type) : Type := List α

/-- Modelled from the spec: `euclidean_distance_sqrt` lives in
`pyclustering.support`, outside the analysed source. Per the spec it is the
sum of squared per-dimension differences between two equal-dimension points. -/
def euclidean_distance_sqrt (a b : Point α) : α :=
  (List.zipWith (fun x y => (x - y) * (x - y)) a b).sum

/-- Squared distance from point `p` to the `j`-th prototype. -/
def dist_to (p : Point α) (medians : List (Point α)) (j : Nat) : α :=
  euclidean_distance_sqrt p (medians.getD j [])

/-- One step of the inner loop of `__update_clusters`: the accumulator is
`(index_optim, dist_optim)`, starting at `(-1, 0.0)`.  The source test is
`(dist < dist_optim) or (index is 0)`; in CPython `index is 0` holds exactly
for the integer `0`, hence `index = 0` here. -/
def closest_step (p : Point α) (medians : List (Point α)) (best : Int × α) (index : Nat) : Int × α :=
  let dist := euclidean_distance_sqrt p (medians.getD index []);
  if dist < best.2 ∨ index = 0 then ((index : Int), dist) else best

/-- The inner loop of `__update_clusters`: fold `closest_step` over the
prototype indices, starting from `index_optim = -1`, `dist_optim = 0.0`. -/
def closest_index (p : Point α) (medians : List (Point α)) : Int × α :=
  (List.range medians.length).foldl (closest_step p medians) (-1, 0)

/-- `__update_clusters`: start from `len(medians)` empty clusters and append
each dataset index to the cluster of its chosen prototype.  For a non-empty
prototype list the final `index_optim` is non-negative, so `Int.toNat`
translates the Python list index faithfully on every reachable input. -/
def update_clusters (data medians : List (Point α)) : List (List Nat) :=
  (List.range data.length).foldl
    (fun clusters index_point =>
      let k := (closest_index (data.getD index_point []) medians).1.toNat;
      clusters.set k ((clusters.getD k []) ++ [index_point]))
    (List.replicate medians.length [])

/-- `__update_medians`: one new prototype per cluster, each an existing data
point selected by the geometric-median collaborator `gm`. -/
def update_medians (gm : List (Point α) → List Nat → Nat) (data : List (Point α))
    (clusters : List (List Nat)) : List (Point α) :=
  clusters.map (fun cluster => data.getD (gm data cluster) [])

/-- The `changes` expression of `process`:
`max([euclidean_distance_sqrt(medians[i], updated_centers[i]) for i in range(len(medians))])`.
Python's `max` faults on an empty list; the total model returns `0` there,
a case unreachable for a non-empty prototype list. -/
def changes_of (medians updated_centers : List (Point α)) : α :=
  (((List.range medians.length).map
    (fun index => euclidean_distance_sqrt (medians.getD index []) (updated_centers.getD index []))).maximum).unbot' 0

/-- The `while changes > stop_condition` loop of `process`, with explicit
fuel.  `changes` starts at `+inf`, so the body always runs at least once;
thereafter the loop repeats exactly while `changes > stop_condition`. -/
def process_loop (gm : List (Point α) → List Nat → Nat) (data : List (Point α)) (stop_condition : α) :
    Nat → List (Point α) → Option (List (List Nat) × List (Point α))
  | 0, _ => none
  | fuel + 1, medians =>
    let clusters := update_clusters data medians
    let updated_centers := update_medians gm data clusters
    let changes := changes_of medians updated_centers
    if stop_condition < changes then
      process_loop gm data stop_condition fuel updated_centers
    else
      some (clusters, updated_centers)

/-- The four instance attributes of class `kmedians`. -/
structure kmedians (α : Type) where
  pointer_data : List (Point α)
  clusters : List (List Nat)
  medians : List (Point α)
  tolerance : α
deriving DecidableEq

deriving instance DecidableEq for Except

/-- `__init__`: store the dataset reference, an empty cluster list, a copy of
the caller's initial centers (`initial_centers[:]`), and the tolerance. -/
def kmedians_init (data : List (Point α)) (initial_centers : List (Point α)) (tolerance : α) : kmedians α :=
  { pointer_data := data, clusters := [], medians := initial_centers, tolerance := tolerance }

/-- The message of the `NameError` raised by `process` on a dimension
mismatch. -/
def dimension_mismatch_msg : String :=
  "Dimension of the input data and dimension of the initial cluster medians must be equal."

/-- Indexing `self.__pointer_data[0]` or `self.__medians[0]` on an empty list
raises a Python `IndexError`, a distinct error from the dimension check. -/
def index_error_msg : String := "IndexError"

/-- `process`: check `len(self.__pointer_data[0]) != len(self.__medians[0])`
before any iteration, then run the convergence loop.  `.error (msg, st)`
carries the engine state at raise time; `.ok none` is fuel exhaustion of the
unbounded source loop; `.ok (some st)` is normal termination. -/
def process (gm : List (Point α) → List Nat → Nat) (fuel : Nat) (st : kmedians α) :
    Except (String × kmedians α) (Option (kmedians α)) :=
  match st.pointer_data, st.medians with
  | point0 :: _, median0 :: _ =>
    if point0.length ≠ median0.length then
      .error (dimension_mismatch_msg, st)
    else
      match process_loop gm st.pointer_data (st.tolerance * st.tolerance) fuel st.medians with
      | none => .ok none
      | some (cl, med) => .ok (some { st with clusters := cl, medians := med })
  | _, _ => .error (index_error_msg, st)

/-- `get_clusters`. -/
def get_clusters (st : kmedians α) : List (List Nat) := st.clusters

/-- `get_centers`. -/
def get_centers (st : kmedians α) : List (Point α) := st.medians

/-- One iteration of the loop as a transformation of the prototype list. -/
def next_medians (gm : List (Point α) → List Nat → Nat) (data : List (Point α)) (m : List (Point α)) : List (Point α) :=
  update_medians gm data (update_clusters data m)

/-- The cost the geometric-median collaborator minimizes, for one-dimensional
points, where the Euclidean distance is the absolute difference. -/
def gm_cost (data : List (Point α)) (indexes : List Nat) (i : Nat) : α :=
  (indexes.map (fun j => |(data.getD i []).getD 0 0 - (data.getD j []).getD 0 0|)).sum

/-- Modelled from the spec: the `geometric_median` collaborator lives in
`pyclustering.support`, outside the analysed source.  Per its contract it
returns one index from the given index sequence whose point minimizes the sum
of Euclidean distances to the points of the sequence; any minimizer satisfies
the contract and this model takes the first.  It is stated for
one-dimensional points, where the Euclidean distance is an exact
absolute difference. -/
def geometric_median (data : List (Point α)) (indexes : List Nat) : Nat :=
  match indexes with
  | [] => 0
  | i0 :: rest =>
    rest.foldl (fun best j => if gm_cost data indexes j < gm_cost data indexes best then j else best) i0

/-- Concrete one-dimensional integer inputs used by witness theorems and
counterexamples (the ring instantiated at `ℤ` so terms evaluate). -/
def tie_data : List (Point ℤ) := [[1]]

/-- Two prototypes exactly equidistant from the point of `tie_data`. -/
def tie_medians : List (Point ℤ) := [[0], [2]]

/-- A two-point dataset for small end-to-end runs. -/
def pair_data : List (Point ℤ) := [[0], [7]]

/-- Initial centers for `pair_data`. -/
def pair_centers : List (Point ℤ) := [[1], [6]]

/-- Engine freshly constructed on `pair_data`. -/
def pair_engine : kmedians ℤ := kmedians_init pair_data pair_centers 1

/-- The engine state after `process` on `pair_engine` converges. -/
def pair_result : kmedians ℤ := ⟨pair_data, [[0], [1]], [[0], [7]], 1⟩

/-- An engine whose first point has dimension 2 but whose first prototype has
dimension 3. -/
def mismatch_engine : kmedians ℤ := kmedians_init [[0, 0]] [[0, 0, 0]] 1

/-- Six one-dimensional points for the re-run scenario. -/
def six_data : List (Point ℤ) := [[0], [1], [2], [3], [6], [9]]

/-- Fresh engine on `six_data` with centers `[5]` and `[9]` and a loose
tolerance. -/
def six_engine : kmedians ℤ := kmedians_init six_data [[5], [9]] 10

/-- The converged state of the first `process` run on `six_engine`. -/
def six_once : kmedians ℤ := ⟨six_data, [[0, 1, 2, 3, 4], [5]], [[2], [9]], 10⟩

/-- The converged state of a second `process` run, started from `six_once`. -/
def six_twice : kmedians ℤ := ⟨six_data, [[0, 1, 2, 3], [4, 5]], [[1], [6]], 10⟩

/-- Three one-dimensional points for the update-step witness. -/
def tri_data : List (Point ℤ) := [[0], [1], [5]]

/-- A cluster partition of `tri_data` into two non-empty clusters. -/
def tri_clusters : List (List Nat) := [[0, 1], [2]]

/-- A one-point engine whose converged state is an assignment fixed point. -/
def unit_engine : kmedians ℤ := kmedians_init [[0]] [[0]] 1

/-- The converged state of `unit_engine`. -/
def unit_fixed : kmedians ℤ := ⟨[[0]], [[0]], [[0]], 1⟩

/-- Strict partition of `{0, ..., N-1}` into index lists: members in range,
every index in exactly one cluster, each cluster strictly ascending. -/
def is_partition (N : Nat) (cls : List (List Nat)) : Prop :=
  (∀ cl ∈ cls, ∀ i ∈ cl, i < N) ∧
  (∀ i, i < N → ∃! k, k < cls.length ∧ i ∈ cls.getD k []) ∧
  (∀ cl ∈ cls, List.Pairwise (· < ·) cl)

/-- The prototype index chosen for dataset index `i` by the inner loop. -/
def assigned (data medians : List (Point α)) (i : Nat) : Nat :=
  (closest_index (data.getD i []) medians).1.toNat

section Lemmas

lemma getD_set_self {α : Type} (l : List α) (k : Nat) (x d : α) (hk : k < l.length) :
    (l.set k x).getD k d = x := by
  induction l generalizing k with
  | nil => simp at hk
  | cons a t ih =>
    cases k with
    | zero => simp
    | succ k => simpa using ih k (by simpa using hk)

lemma getD_set_ne {α : Type} (l : List α) (k j : Nat) (x d : α) (h : j ≠ k) :
    (l.set k x).getD j d = l.getD j d := by
  induction l generalizing k j with
  | nil => simp
  | cons a t ih =>
    cases k with
    | zero => cases j with
      | zero => exact absurd rfl h
      | succ j => simp
    | succ k => cases j with
      | zero => simp
      | succ j => simpa using ih k j (by omega)

lemma getD_replicate (n k : Nat) :
    (List.replicate n ([] : List Nat)).getD k [] = [] := by
  by_cases h : k < n <;>
    simp [List.getD_eq_getElem?_getD, List.getElem?_replicate, h]

lemma build_length (f : Nat → Nat) (l : List Nat) (init : List (List Nat)) :
    (l.foldl (fun cls i => cls.set (f i) (cls.getD (f i) [] ++ [i])) init).length =
      init.length := by
  induction l generalizing init with
  | nil => rfl
  | cons a t ih => simpa using ih (init.set (f a) (init.getD (f a) [] ++ [a]))

lemma build_getD (f : Nat → Nat) (l : List Nat) (init : List (List Nat)) (k : Nat)
    (hk : k < init.length) (hf : ∀ i ∈ l, f i < init.length) :
    (l.foldl (fun cls i => cls.set (f i) (cls.getD (f i) [] ++ [i])) init).getD k [] =
      init.getD k [] ++ l.filter (fun i => f i == k) := by
  induction l generalizing init with
  | nil => simp
  | cons a t ih =>
    have ha : f a < init.length := hf a (by simp)
    have hstep := ih (init.set (f a) (init.getD (f a) [] ++ [a]))
      (by simpa using hk) (fun i hi => by simpa using hf i (List.mem_cons_of_mem a hi))
    rw [List.foldl_cons, hstep]
    by_cases hak : f a = k
    · subst hak
      rw [getD_set_self _ _ _ _ ha]
      simp [List.filter_cons, List.append_assoc]
    · rw [getD_set_ne _ _ _ _ _ (fun h => hak h.symm)]
      simp [List.filter_cons, hak]

lemma closest_fold_spec (p : Point α) (medians : List (Point α)) (len : Nat) :
    ∀ (start b : Nat) (v : α), 0 < start → b < start →
      v = dist_to p medians b →
      (∀ j, j < start → v ≤ dist_to p medians j) →
      (∀ j, j < b → v < dist_to p medians j) →
      ∃ b' : Nat,
        (List.range' start len).foldl (closest_step p medians) (((b : Nat) : Int), v) =
          (((b' : Nat) : Int), dist_to p medians b') ∧
        b' < start + len ∧
        (∀ j, j < start + len → dist_to p medians b' ≤ dist_to p medians j) ∧
        (∀ j, j < b' → dist_to p medians b' < dist_to p medians j) := by
  induction len with
  | zero =>
    intro start b v hs hb hv hmin hstrict
    exact ⟨b, by simp [hv], by omega, fun j hj => hv ▸ hmin j (by omega), fun j hj => hv ▸ hstrict j hj⟩
  | succ n ih =>
    intro start b v hs hb hv hmin hstrict
    rw [List.range'_succ, List.foldl_cons]
    by_cases hlt : euclidean_distance_sqrt p (medians.getD start []) < v
    · have hcond : euclidean_distance_sqrt p (medians.getD start []) < v ∨ start = 0 :=
        Or.inl hlt
      have hstep : closest_step p medians (((b : Nat) : Int), v) start =
          (((start : Nat) : Int), dist_to p medians start) := by
        simp only [closest_step, dist_to, if_pos hcond]
      rw [hstep]
      have := ih (start + 1) start (dist_to p medians start) (by omega) (by omega) rfl
        (fun j hj => by
          rcases Nat.lt_succ_iff_lt_or_eq.mp hj with hj' | hj'
          · exact le_of_lt (lt_of_lt_of_le hlt (hmin j hj'))
          · subst hj'; exact le_refl _)
        (fun j hj => lt_of_lt_of_le hlt (hmin j hj))
      obtain ⟨b', h1, h2, h3, h4⟩ := this
      exact ⟨b', h1, by omega, fun j hj => h3 j (by omega), h4⟩
    · have hs0 : start ≠ 0 := by omega
      have hcond : ¬ (euclidean_distance_sqrt p (medians.getD start []) < v ∨ start = 0) := by
        rintro (hc | hc)
        · exact hlt hc
        · exact hs0 hc
      have hstep : closest_step p medians (((b : Nat) : Int), v) start =
          (((b : Nat) : Int), v) := by
        simp only [closest_step, dist_to, if_neg hcond]
      rw [hstep]
      have := ih (start + 1) b v (by omega) (by omega) hv
        (fun j hj => by
          rcases Nat.lt_succ_iff_lt_or_eq.mp hj with hj' | hj'
          · exact hmin j hj'
          · subst hj'; exact le_of_not_lt (by simpa [dist_to] using hlt))
        hstrict
      obtain ⟨b', h1, h2, h3, h4⟩ := this
      exact ⟨b', h1, by omega, fun j hj => h3 j (by omega), h4⟩

lemma closest_index_spec (p : Point α) (medians : List (Point α)) (hm : medians ≠ []) :
    ∃ b : Nat, closest_index p medians = (((b : Nat) : Int), dist_to p medians b) ∧
      b < medians.length ∧
      (∀ j, j < medians.length → dist_to p medians b ≤ dist_to p medians j) ∧
      (∀ j, j < b → dist_to p medians b < dist_to p medians j) := by
  obtain ⟨K, hK⟩ : ∃ K, medians.length = K + 1 := by
    cases medians with
    | nil => exact absurd rfl hm
    | cons a t => exact ⟨t.length, rfl⟩
  unfold closest_index
  rw [hK, List.range_eq_range', List.range'_succ, List.foldl_cons]
  have h0 : closest_step p medians (-1, 0) 0 = (((0 : Nat) : Int), dist_to p medians 0) := by
    simp [closest_step, dist_to]
  rw [h0]
  have := closest_fold_spec p medians K 1 0 (dist_to p medians 0) Nat.one_pos Nat.zero_lt_one rfl
    (fun j hj => by interval_cases j; exact le_refl _)
    (fun j hj => by omega)
  obtain ⟨b', h1, h2, h3, h4⟩ := this
  exact ⟨b', by simpa using h1, by omega, fun j hj => h3 j (by omega), h4⟩

lemma assigned_spec (data medians : List (Point α)) (hm : medians ≠ []) (i : Nat) :
    assigned data medians i < medians.length ∧
    (∀ j, j < medians.length →
      dist_to (data.getD i []) medians (assigned data medians i) ≤ dist_to (data.getD i []) medians j) ∧
    (∀ j, j < assigned data medians i →
      dist_to (data.getD i []) medians (assigned data medians i) < dist_to (data.getD i []) medians j) := by
  obtain ⟨b, h1, h2, h3, h4⟩ := closest_index_spec (data.getD i []) medians hm
  have hb : assigned data medians i = b := by
    unfold assigned
    rw [h1]
    simp
  rw [hb]
  exact ⟨h2, h3, h4⟩

lemma update_clusters_eq_build (data medians : List (Point α)) :
    update_clusters data medians =
      (List.range data.length).foldl
        (fun cls i =>
          cls.set (assigned data medians i) ((cls.getD (assigned data medians i) []) ++ [i]))
        (List.replicate medians.length []) := rfl

lemma update_medians_length (gm : List (Point α) → List Nat → Nat) (data : List (Point α))
    (clusters : List (List Nat)) :
    (update_medians gm data clusters).length = clusters.length := by
  simp [update_medians]

lemma update_clusters_length (data medians : List (Point α)) :
    (update_clusters data medians).length = medians.length := by
  rw [update_clusters_eq_build, build_length]
  exact List.length_replicate _ _

lemma update_clusters_getD (data medians : List (Point α)) (hm : medians ≠ []) (k : Nat)
    (hk : k < medians.length) :
    (update_clusters data medians).getD k [] =
      (List.range data.length).filter (fun i => assigned data medians i == k) := by
  rw [update_clusters_eq_build, build_getD]
  · rw [getD_replicate]
    rfl
  · simpa using hk
  · intro i _
    simpa using (assigned_spec data medians hm i).1

lemma mem_update_clusters_iff (data medians : List (Point α)) (hm : medians ≠ []) (k : Nat)
    (hk : k < medians.length) (i : Nat) :
    i ∈ (update_clusters data medians).getD k [] ↔
      i < data.length ∧ assigned data medians i = k := by
  rw [update_clusters_getD data medians hm k hk]
  simp [List.mem_filter]

lemma update_clusters_sorted (data medians : List (Point α)) (hm : medians ≠ []) (k : Nat)
    (hk : k < medians.length) :
    List.Pairwise (· < ·) ((update_clusters data medians).getD k []) := by
  rw [update_clusters_getD data medians hm k hk]
  exact (List.pairwise_lt_range data.length).sublist (List.filter_sublist _)

lemma next_medians_def (gm : List (Point α) → List Nat → Nat) (data m : List (Point α)) :
    next_medians gm data m = update_medians gm data (update_clusters data m) := rfl

lemma changes_of_spec (m m' : List (Point α)) (hm : m ≠ []) :
    (∀ i, i < m.length →
      euclidean_distance_sqrt (m.getD i []) (m'.getD i []) ≤ changes_of m m') ∧
    (∃ i, i < m.length ∧
      changes_of m m' = euclidean_distance_sqrt (m.getD i []) (m'.getD i [])) := by
  have hlne : ((List.range m.length).map
      (fun index => euclidean_distance_sqrt (m.getD index []) (m'.getD index []))) ≠ [] := by
    simp only [ne_eq, List.map_eq_nil_iff, List.range_eq_nil, List.length_eq_zero]
    exact hm
  obtain ⟨a, ha⟩ : ∃ a : α, ((List.range m.length).map
      (fun index => euclidean_distance_sqrt (m.getD index []) (m'.getD index []))).maximum = a := by
    cases hmax : ((List.range m.length).map
        (fun index => euclidean_distance_sqrt (m.getD index []) (m'.getD index []))).maximum with
    | bot => exact absurd (List.maximum_eq_bot.mp hmax) hlne
    | coe a => exact ⟨a, rfl⟩
  have hval : changes_of m m' = a := by
    rw [changes_of, ha, WithBot.unbot'_coe]
  constructor
  · intro i hi
    have hmem : euclidean_distance_sqrt (m.getD i []) (m'.getD i []) ∈
        (List.range m.length).map
          (fun index => euclidean_distance_sqrt (m.getD index []) (m'.getD index [])) :=
      List.mem_map_of_mem _ (List.mem_range.mpr hi)
    have := List.le_maximum_of_mem hmem ha
    rw [hval]
    exact_mod_cast this
  · have hmem := List.maximum_mem ha
    obtain ⟨i, hi, hia⟩ := List.mem_map.mp hmem
    exact ⟨i, List.mem_range.mp hi, by rw [hval, hia]⟩

lemma process_loop_some_spec (gm : List (Point α) → List Nat → Nat) (data : List (Point α)) (stop : α) :
    ∀ (fuel : Nat) (m : List (Point α)) (cl : List (List Nat)) (med : List (Point α)),
      process_loop gm data stop fuel m = some (cl, med) →
      ∃ m', m'.length = m.length ∧ cl = update_clusters data m' ∧
        med = update_medians gm data cl := by
  intro fuel
  induction fuel with
  | zero =>
    intro m cl med h
    simp [process_loop] at h
  | succ n ih =>
    intro m cl med h
    simp only [process_loop] at h
    split at h
    · obtain ⟨m', hlen, hcl, hmed⟩ := ih _ _ _ h
      refine ⟨m', ?_, hcl, hmed⟩
      rw [hlen, update_medians_length, update_clusters_length]
    · obtain ⟨hcl, hmed⟩ := Prod.mk.injEq .. ▸ Option.some.injEq _ _ ▸ h
      exact ⟨m, rfl, hcl.symm, by rw [← hcl, hmed.symm]⟩

lemma process_loop_iff (gm : List (Point α) → List Nat → Nat) (data : List (Point α)) (stop : α) :
    ∀ (fuel : Nat) (m : List (Point α)) (cl : List (List Nat)) (med : List (Point α)),
      process_loop gm data stop fuel m = some (cl, med) ↔
        ∃ n, n < fuel ∧
          (∀ j, j < n →
            stop < changes_of ((next_medians gm data)^[j] m) ((next_medians gm data)^[j+1] m)) ∧
          ¬ stop < changes_of ((next_medians gm data)^[n] m) ((next_medians gm data)^[n+1] m) ∧
          cl = update_clusters data ((next_medians gm data)^[n] m) ∧
          med = (next_medians gm data)^[n+1] m := by
  intro fuel
  induction fuel with
  | zero =>
    intro m cl med
    simp [process_loop]
  | succ n ih =>
    intro m cl med
    simp only [process_loop]
    rw [← next_medians_def gm data m]
    constructor
    · intro h
      split at h
      case isTrue hc =>
        obtain ⟨k, hk, hiter, hstop, hcl, hmed⟩ := (ih (next_medians gm data m) cl med).mp h
        refine ⟨k + 1, by omega, ?_, ?_, ?_, ?_⟩
        · intro j hj
          cases j with
          | zero => simpa using hc
          | succ j =>
            have := hiter j (by omega)
            rwa [← Function.iterate_succ_apply, ← Function.iterate_succ_apply] at this
        · rwa [← Function.iterate_succ_apply, ← Function.iterate_succ_apply] at hstop
        · rwa [← Function.iterate_succ_apply] at hcl
        · rwa [← Function.iterate_succ_apply] at hmed
      case isFalse hc =>
        obtain ⟨hcl, hmed⟩ := Prod.mk.injEq .. ▸ Option.some.injEq _ _ ▸ h
        exact ⟨0, by omega, by omega, by simpa using hc, by simpa using hcl.symm,
          by simpa using hmed.symm⟩
    · rintro ⟨k, hk, hiter, hstop, hcl, hmed⟩
      cases k with
      | zero =>
        have hc : ¬ stop < changes_of m (next_medians gm data m) := by simpa using hstop
        rw [if_neg hc]
        simp only [zero_add, Function.iterate_zero_apply, Function.iterate_one] at hcl hmed
        rw [hcl, hmed, next_medians_def]
      | succ k =>
        have hc : stop < changes_of m (next_medians gm data m) := by
          simpa using hiter 0 (by omega)
        rw [if_pos hc]
        refine (ih (next_medians gm data m) cl med).mpr ⟨k, by omega, ?_, ?_, ?_, ?_⟩
        · intro j hj
          have := hiter (j + 1) (by omega)
          rwa [Function.iterate_succ_apply, Function.iterate_succ_apply] at this
        · rwa [Function.iterate_succ_apply, Function.iterate_succ_apply] at hstop
        · rwa [Function.iterate_succ_apply] at hcl
        · rwa [Function.iterate_succ_apply] at hmed

lemma process_spec (gm : List (Point α) → List Nat → Nat) (fuel : Nat) (st : kmedians α) :
    process gm fuel st =
      if st.pointer_data = [] ∨ st.medians = [] then .error (index_error_msg, st)
      else if (st.pointer_data.getD 0 []).length ≠ (st.medians.getD 0 []).length then
        .error (dimension_mismatch_msg, st)
      else
        match process_loop gm st.pointer_data (st.tolerance * st.tolerance) fuel st.medians with
        | none => .ok none
        | some (cl, med) => .ok (some { st with clusters := cl, medians := med }) := by
  rcases hdata : st.pointer_data with _ | ⟨p0, ps⟩ <;>
    rcases hmed : st.medians with _ | ⟨m0, ms⟩ <;>
    simp [process, hdata, hmed]

lemma process_error_state (gm : List (Point α) → List Nat → Nat) (fuel : Nat) (st : kmedians α)
    (msg : String) (st_err : kmedians α)
    (h : process gm fuel st = .error (msg, st_err)) : st_err = st := by
  rw [process_spec] at h
  split at h
  · simp only [Except.error.injEq, Prod.mk.injEq] at h
    exact h.2.symm
  · split at h
    · simp only [Except.error.injEq, Prod.mk.injEq] at h
      exact h.2.symm
    · split at h <;> simp at h

lemma process_ok_some (gm : List (Point α) → List Nat → Nat) (fuel : Nat) (st st' : kmedians α)
    (h : process gm fuel st = .ok (some st')) :
    st.pointer_data ≠ [] ∧ st.medians ≠ [] ∧
    (st.pointer_data.getD 0 []).length = (st.medians.getD 0 []).length ∧
    process_loop gm st.pointer_data (st.tolerance * st.tolerance) fuel st.medians =
      some (st'.clusters, st'.medians) ∧
    st'.pointer_data = st.pointer_data ∧ st'.tolerance = st.tolerance := by
  rw [process_spec] at h
  split at h
  · simp at h
  · rename_i hne
    push_neg at hne
    split at h
    · simp at h
    · rename_i hdim
      push_neg at hdim
      split at h
      · simp at h
      · rename_i cl med hloop
        simp only [Except.ok.injEq, Option.some.injEq] at h
        subst h
        exact ⟨hne.1, hne.2, hdim, hloop, rfl, rfl⟩

lemma process_ok_some_reverse (gm : List (Point α) → List Nat → Nat) (fuel : Nat) (st : kmedians α)
    (hdata : st.pointer_data ≠ []) (hmed : st.medians ≠ [])
    (hdim : (st.pointer_data.getD 0 []).length = (st.medians.getD 0 []).length)
    (cl : List (List Nat)) (med : List (Point α))
    (hloop : process_loop gm st.pointer_data (st.tolerance * st.tolerance) fuel st.medians =
      some (cl, med)) :
    process gm fuel st = .ok (some { st with clusters := cl, medians := med }) := by
  rw [process_spec]
  rw [if_neg (by push_neg; exact ⟨hdata, hmed⟩), if_neg (by push_neg; exact hdim), hloop]

lemma euclidean_distance_sqrt_self (a : Point α) : euclidean_distance_sqrt a a = 0 := by
  induction a with
  | nil => rfl
  | cons x xs ih =>
    unfold euclidean_distance_sqrt at ih ⊢
    simp [ih]

lemma changes_of_self (m : List (Point α)) : changes_of m m = 0 := by
  cases hm : m with
  | nil => rfl
  | cons a t =>
    have hne : m ≠ [] := by rw [hm]; exact List.cons_ne_nil a t
    obtain ⟨-, i, -, heq⟩ := changes_of_spec m m hne
    rw [← hm, heq, euclidean_distance_sqrt_self]

lemma update_clusters_partition (data medians : List (Point α)) (hm : medians ≠ []) :
    is_partition data.length (update_clusters data medians) := by
  have hlen := update_clusters_length data medians
  refine ⟨?_, ?_, ?_⟩
  · intro cl hcl i hicl
    obtain ⟨k, hk, hkcl⟩ := List.getElem_of_mem hcl
    have hkm : k < medians.length := hlen ▸ hk
    have hgd : (update_clusters data medians).getD k [] = cl := by
      rw [List.getD_eq_getElem _ _ hk, hkcl]
    exact ((mem_update_clusters_iff data medians hm k hkm i).mp (hgd ▸ hicl)).1
  · intro i hi
    refine ⟨assigned data medians i, ⟨?_, ?_⟩, ?_⟩
    · rw [hlen]
      exact (assigned_spec data medians hm i).1
    · exact (mem_update_clusters_iff data medians hm _
        (assigned_spec data medians hm i).1 i).mpr ⟨hi, rfl⟩
    · rintro k' ⟨hk', hmem⟩
      have hk'm : k' < medians.length := hlen ▸ hk'
      exact ((mem_update_clusters_iff data medians hm k' hk'm i).mp hmem).2.symm
  · intro cl hcl
    obtain ⟨k, hk, hkcl⟩ := List.getElem_of_mem hcl
    have hkm : k < medians.length := hlen ▸ hk
    have hgd : (update_clusters data medians).getD k [] = cl := by
      rw [List.getD_eq_getElem _ _ hk, hkcl]
    exact hgd ▸ update_clusters_sorted data medians hm k hkm

end Lemmas

section Claims

/-- C1: for every dataset and non-empty prototype list, the assignment step
puts each dataset index `i` into the cluster of a prototype whose squared
Euclidean distance to the point is minimal, and that prototype has the least
index among the minimizers: every strictly earlier prototype is strictly
farther, so on an exact tie the earlier prototype keeps the point (prototype
`0` being the unconditional initial best). -/
theorem assignment_nearest_prototype_first_wins (data medians : List (Point α))
    (hm : medians ≠ []) (i : Nat) (hi : i < data.length) :
    ∃ k, k < medians.length ∧
      i ∈ (update_clusters data medians).getD k [] ∧
      (∀ j, j < medians.length →
        euclidean_distance_sqrt (data.getD i []) (medians.getD k []) ≤
          euclidean_distance_sqrt (data.getD i []) (medians.getD j [])) ∧
      (∀ j, j < k →
        euclidean_distance_sqrt (data.getD i []) (medians.getD k []) <
          euclidean_distance_sqrt (data.getD i []) (medians.getD j [])) := by
  obtain ⟨hlt, hmin, hstrict⟩ := assigned_spec data medians hm i
  exact ⟨assigned data medians i, hlt,
    (mem_update_clusters_iff data medians hm _ hlt i).mpr ⟨hi, rfl⟩, hmin, hstrict⟩

/-- Witness for C1 at a concrete tie: the point `[1]` is equidistant from the
prototypes `[0]` and `[2]` and lands in cluster `0`. -/
theorem assignment_nearest_prototype_first_wins_witness :
    ∃ k, k < tie_medians.length ∧
      0 ∈ (update_clusters tie_data tie_medians).getD k [] ∧
      (∀ j, j < tie_medians.length →
        euclidean_distance_sqrt (tie_data.getD 0 []) (tie_medians.getD k []) ≤
          euclidean_distance_sqrt (tie_data.getD 0 []) (tie_medians.getD j [])) ∧
      (∀ j, j < k →
        euclidean_distance_sqrt (tie_data.getD 0 []) (tie_medians.getD k []) <
          euclidean_distance_sqrt (tie_data.getD 0 []) (tie_medians.getD j [])) :=
  assignment_nearest_prototype_first_wins tie_data tie_medians (by decide) 0 (by decide)

/-- C2: after an assignment step on a non-empty prototype list the clusters
are one per prototype and form a strict partition of the dataset indices with
each cluster strictly ascending; after a terminating `process` the stored
clusters are such a partition as well. -/
theorem assignment_step_partition (gm : List (Point α) → List Nat → Nat)
    (data medians : List (Point α)) (fuel : Nat) (st st' : kmedians α)
    (hm : medians ≠ []) (hproc : process gm fuel st = .ok (some st')) :
    (update_clusters data medians).length = medians.length ∧
    is_partition data.length (update_clusters data medians) ∧
    is_partition st.pointer_data.length st'.clusters := by
  refine ⟨update_clusters_length data medians, update_clusters_partition data medians hm, ?_⟩
  obtain ⟨_, hmed, _, hloop, _, _⟩ := process_ok_some gm fuel st st' hproc
  obtain ⟨m', hlen, hcl, _⟩ := process_loop_some_spec gm st.pointer_data _ fuel st.medians _ _ hloop
  have hm' : m' ≠ [] := by
    intro h
    rw [h] at hlen
    exact hmed (List.length_eq_zero.mp hlen.symm)
  rw [hcl]
  exact update_clusters_partition st.pointer_data m' hm'

/-- Witness for C2 on a concrete engine and a concrete assignment step. -/
theorem assignment_step_partition_witness :
    (update_clusters pair_data pair_centers).length = pair_centers.length ∧
    is_partition pair_data.length (update_clusters pair_data pair_centers) ∧
    is_partition pair_engine.pointer_data.length pair_result.clusters :=
  assignment_step_partition geometric_median pair_data pair_centers 2
    pair_engine pair_result (by decide) (by decide)

/-- C3: `process` fails with the dimension-mismatch error, carrying the
untouched state, exactly when both the dataset and the prototype list are
non-empty and the length of the first dataset point differs from the length
of the first prototype; the condition does not involve the fuel (the check
precedes the loop), and no other input triggers this error (an empty dataset
or prototype list raises a different, index error). -/
theorem dimension_mismatch_characterization (gm : List (Point α) → List Nat → Nat)
    (fuel : Nat) (st : kmedians α) :
    process gm fuel st = .error (dimension_mismatch_msg, st) ↔
      st.pointer_data ≠ [] ∧ st.medians ≠ [] ∧
        (st.pointer_data.getD 0 []).length ≠ (st.medians.getD 0 []).length := by
  rw [process_spec]
  constructor
  · intro h
    split at h
    · exfalso
      simp only [Except.error.injEq, Prod.mk.injEq] at h
      exact absurd h.1 (by decide)
    · rename_i hor
      push_neg at hor
      split at h
      · rename_i hdim
        exact ⟨hor.1, hor.2, hdim⟩
      · split at h <;> simp at h
  · rintro ⟨h1, h2, h3⟩
    rw [if_neg (by push_neg; exact ⟨h1, h2⟩), if_pos h3]

/-- C4: a terminating `process` run realizes the first crossing of the stop
condition: there is an iteration count `n` below the fuel such that every
earlier iteration's `changes` exceeds `tolerance^2`, iteration `n`'s
`changes` is at most `tolerance^2`, and the final state stores the clusters
of iteration `n` and the prototypes produced by it; moreover for non-empty
prototype lists `changes` is exactly the maximum over all prototype indices
of the squared Euclidean distance between old and new prototype. -/
theorem process_convergence_structure (gm : List (Point α) → List Nat → Nat)
    (fuel : Nat) (st st' : kmedians α)
    (hproc : process gm fuel st = .ok (some st')) :
    (∀ m m' : List (Point α), m ≠ [] →
      (∀ i, i < m.length →
        euclidean_distance_sqrt (m.getD i []) (m'.getD i []) ≤ changes_of m m') ∧
      (∃ i, i < m.length ∧
        changes_of m m' = euclidean_distance_sqrt (m.getD i []) (m'.getD i []))) ∧
    (∃ n, n < fuel ∧
      (∀ j, j < n →
        st.tolerance * st.tolerance <
          changes_of ((next_medians gm st.pointer_data)^[j] st.medians)
            ((next_medians gm st.pointer_data)^[j + 1] st.medians)) ∧
      changes_of ((next_medians gm st.pointer_data)^[n] st.medians)
          ((next_medians gm st.pointer_data)^[n + 1] st.medians) ≤
        st.tolerance * st.tolerance ∧
      st'.clusters =
        update_clusters st.pointer_data ((next_medians gm st.pointer_data)^[n] st.medians) ∧
      st'.medians = (next_medians gm st.pointer_data)^[n + 1] st.medians) := by
  refine ⟨fun m m' hm => changes_of_spec m m' hm, ?_⟩
  obtain ⟨_, _, _, hloop, _, _⟩ := process_ok_some gm fuel st st' hproc
  obtain ⟨n, hn, hiter, hstop, hcl, hmed⟩ :=
    (process_loop_iff gm st.pointer_data _ fuel st.medians _ _).mp hloop
  exact ⟨n, hn, hiter, not_lt.mp hstop, hcl, hmed⟩

/-- Witness for C4 on `six_engine`, which converges with its first iteration. -/
theorem process_convergence_structure_witness :
    (∀ m m' : List (Point ℤ), m ≠ [] →
      (∀ i, i < m.length →
        euclidean_distance_sqrt (m.getD i []) (m'.getD i []) ≤ changes_of m m') ∧
      (∃ i, i < m.length ∧
        changes_of m m' = euclidean_distance_sqrt (m.getD i []) (m'.getD i []))) ∧
    (∃ n, n < 1 ∧
      (∀ j, j < n →
        six_engine.tolerance * six_engine.tolerance <
          changes_of ((next_medians geometric_median six_engine.pointer_data)^[j] six_engine.medians)
            ((next_medians geometric_median six_engine.pointer_data)^[j + 1] six_engine.medians)) ∧
      changes_of ((next_medians geometric_median six_engine.pointer_data)^[n] six_engine.medians)
          ((next_medians geometric_median six_engine.pointer_data)^[n + 1] six_engine.medians) ≤
        six_engine.tolerance * six_engine.tolerance ∧
      six_once.clusters =
        update_clusters six_engine.pointer_data
          ((next_medians geometric_median six_engine.pointer_data)^[n] six_engine.medians) ∧
      six_once.medians =
        (next_medians geometric_median six_engine.pointer_data)^[n + 1] six_engine.medians) :=
  process_convergence_structure geometric_median 1 six_engine six_once (by decide)

/-- C5: on any cluster partition with non-empty clusters of in-range indices,
and a collaborator honouring its contract (it picks an index from the given
cluster), the update step returns one prototype per cluster, the `i`-th being
exactly `dataset[gm(dataset, clusters[i])]`, so every new prototype is an
existing dataset point; the cluster partition is not an output of the step
(the step is a pure function of it). -/
theorem update_step_selects_data_points (gm : List (Point α) → List Nat → Nat)
    (data : List (Point α)) (clusters : List (List Nat))
    (hne : ∀ cl ∈ clusters, cl ≠ [])
    (hbound : ∀ cl ∈ clusters, ∀ i ∈ cl, i < data.length)
    (hgm : ∀ cl ∈ clusters, gm data cl ∈ cl) :
    (update_medians gm data clusters).length = clusters.length ∧
    (∀ k, k < clusters.length →
      (update_medians gm data clusters).getD k [] =
        data.getD (gm data (clusters.getD k [])) []) ∧
    (∀ q ∈ update_medians gm data clusters, q ∈ data) := by
  refine ⟨update_medians_length gm data clusters, ?_, ?_⟩
  · intro k hk
    have hk' : k < (update_medians gm data clusters).length := by
      rw [update_medians_length]
      exact hk
    rw [List.getD_eq_getElem _ _ hk']
    conv_lhs => unfold update_medians
    rw [List.getElem_map, List.getD_eq_getElem _ _ hk]
  · intro q hq
    unfold update_medians at hq
    obtain ⟨cl, hcl, rfl⟩ := List.mem_map.mp hq
    have hlt : gm data cl < data.length := hbound cl hcl _ (hgm cl hcl)
    rw [List.getD_eq_getElem _ _ hlt]
    exact List.getElem_mem _

/-- Witness for C5 on an integer dataset split into two clusters. -/
theorem update_step_selects_data_points_witness :
    (update_medians geometric_median tri_data tri_clusters).length = tri_clusters.length ∧
    (∀ k, k < tri_clusters.length →
      (update_medians geometric_median tri_data tri_clusters).getD k [] =
        tri_data.getD (geometric_median tri_data (tri_clusters.getD k [])) []) ∧
    (∀ q ∈ update_medians geometric_median tri_data tri_clusters, q ∈ tri_data) :=
  update_step_selects_data_points geometric_median tri_data tri_clusters
    (by decide) (by decide) (by decide)

/-- C6 counterexample: immediately after construction the cluster list is
empty while the center list has length `K = 1`, so
`len(get_clusters()) == len(get_centers())` already fails before the first
`process` call. -/
theorem alignment_fails_after_construction :
    (get_clusters (kmedians_init ([[0]] : List (Point ℤ)) [[0]] 1)).length ≠
      (get_centers (kmedians_init ([[0]] : List (Point ℤ)) [[0]] 1)).length := by
  decide

/-- C6 amended: after construction `get_centers` has length `K` while
`get_clusters` is empty (length `0`); after every terminating `process` call
both `get_clusters` and `get_centers` have length `K`, the number of
prototypes stored when the call began. -/
theorem alignment_after_process (gm : List (Point α) → List Nat → Nat)
    (d c : List (Point α)) (t : α) (fuel : Nat) (st st' : kmedians α)
    (hproc : process gm fuel st = .ok (some st')) :
    (get_centers (kmedians_init d c t)).length = c.length ∧
    get_clusters (kmedians_init d c t) = [] ∧
    (get_clusters st').length = st.medians.length ∧
    (get_centers st').length = st.medians.length := by
  obtain ⟨_, _, _, hloop, _, _⟩ := process_ok_some gm fuel st st' hproc
  obtain ⟨m', hlen, hcl, hmed⟩ :=
    process_loop_some_spec gm st.pointer_data _ fuel st.medians _ _ hloop
  refine ⟨rfl, rfl, ?_, ?_⟩
  · rw [get_clusters, hcl, update_clusters_length, hlen]
  · rw [get_centers, hmed, update_medians_length, hcl, update_clusters_length, hlen]

/-- Witness for the amended C6 on the `pair_data` engine. -/
theorem alignment_after_process_witness :
    (get_centers (kmedians_init pair_data pair_centers (1 : ℤ))).length = pair_centers.length ∧
    get_clusters (kmedians_init pair_data pair_centers (1 : ℤ)) = [] ∧
    (get_clusters pair_result).length = pair_engine.medians.length ∧
    (get_centers pair_result).length = pair_engine.medians.length :=
  alignment_after_process geometric_median pair_data pair_centers 1 2
    pair_engine pair_result (by decide)

/-- C7: the constructor stores the dataset, a copy of the caller's initial
centers, an empty cluster list and the tolerance, and a terminating `process`
call rewrites only the `clusters` and `medians` fields — the stored dataset
and tolerance are identical before and after, so neither the caller's dataset
nor the caller's initial-center list is ever written through. -/
theorem constructor_copy_and_process_frame (gm : List (Point α) → List Nat → Nat)
    (d c : List (Point α)) (t : α) (fuel : Nat) (st0 st st' : kmedians α)
    (hinit : st0 = kmedians_init d c t)
    (hproc : process gm fuel st = .ok (some st')) :
    st0.pointer_data = d ∧ st0.medians = c ∧ st0.clusters = [] ∧ st0.tolerance = t ∧
    st'.pointer_data = st.pointer_data ∧ st'.tolerance = st.tolerance := by
  subst hinit
  obtain ⟨_, _, _, _, hp, ht⟩ := process_ok_some gm fuel st st' hproc
  exact ⟨rfl, rfl, rfl, rfl, hp, ht⟩

/-- Witness for C7 on the `pair_data` engine. -/
theorem constructor_copy_and_process_frame_witness :
    pair_engine.pointer_data = pair_data ∧ pair_engine.medians = pair_centers ∧
    pair_engine.clusters = [] ∧ pair_engine.tolerance = 1 ∧
    pair_result.pointer_data = pair_engine.pointer_data ∧
    pair_result.tolerance = pair_engine.tolerance :=
  constructor_copy_and_process_frame geometric_median pair_data pair_centers 1 2
    pair_engine pair_engine pair_result rfl (by decide)

/-- C8 counterexample: `six_engine` converges in one pass to `six_once`
(centers moved within tolerance), but a second `process` call reassigns point
`4` and moves both centers again, returning `six_twice` with different
clusters and different centers — `process` is not idempotent on an
already-converged engine. -/
theorem second_process_changes_result :
    process geometric_median 1 six_engine = .ok (some six_once) ∧
    process geometric_median 1 six_once = .ok (some six_twice) ∧
    get_clusters six_twice ≠ get_clusters six_once ∧
    get_centers six_twice ≠ get_centers six_once :=
  ⟨by decide, by decide, by decide, by decide⟩

/-- C8 amended: re-running `process` preserves the result exactly on
converged states that are fixed points of the assignment step: if a
terminating run ends in `st1`, the assignment step on `st1`'s medians
reproduces `st1`'s clusters, and the dimension check still passes, then any
further `process` call returns `st1` itself, so `get_clusters` and
`get_centers` are unchanged.  (Convergence within a positive tolerance alone
does not imply this, as the counterexample shows.) -/
theorem process_idempotent_on_assignment_fixed_points
    (gm : List (Point α) → List Nat → Nat) (fuel fuel' : Nat) (st0 st1 : kmedians α)
    (hrun : process gm fuel st0 = .ok (some st1))
    (hfix : update_clusters st1.pointer_data st1.medians = st1.clusters)
    (hdim : (st1.pointer_data.getD 0 []).length = (st1.medians.getD 0 []).length) :
    process gm (fuel' + 1) st1 = .ok (some st1) := by
  obtain ⟨hdat, hmedne, _, hloop, hp, ht⟩ := process_ok_some gm fuel st0 st1 hrun
  obtain ⟨m', hlen, hcl, hmed⟩ :=
    process_loop_some_spec gm st0.pointer_data _ fuel st0.medians _ _ hloop
  have hdat1 : st1.pointer_data ≠ [] := by
    rw [hp]
    exact hdat
  have hml : st1.medians.length = st0.medians.length := by
    rw [hmed, update_medians_length, hcl, update_clusters_length, hlen]
  have hmed1 : st1.medians ≠ [] := by
    intro h
    rw [h] at hml
    exact hmedne (List.length_eq_zero.mp hml.symm)
  have hupd2 : update_medians gm st1.pointer_data st1.clusters = st1.medians := by
    rw [hp, ← hmed]
  have hloop1 : process_loop gm st1.pointer_data (st1.tolerance * st1.tolerance)
      (fuel' + 1) st1.medians = some (st1.clusters, st1.medians) := by
    simp only [process_loop]
    rw [hfix, hupd2, changes_of_self,
      if_neg (not_lt.mpr (mul_self_nonneg st1.tolerance))]
  have hfin := process_ok_some_reverse gm (fuel' + 1) st1 hdat1 hmed1 hdim _ _ hloop1
  rw [hfin]

/-- Witness for the amended C8 on a one-point engine whose converged state is
an assignment fixed point. -/
theorem process_idempotent_on_assignment_fixed_points_witness :
    process geometric_median (0 + 1) unit_fixed = .ok (some unit_fixed) :=
  process_idempotent_on_assignment_fixed_points geometric_median 1 0 unit_engine unit_fixed
    (by decide) (by decide) (by decide)

/-- C9: whenever `process` raises, the engine state carried at raise time is
the entry state itself, so `get_clusters` and `get_centers` are unchanged by
the failed call; on a freshly constructed engine they are the empty cluster
list and the copied initial centers. -/
theorem process_error_leaves_state_unchanged (gm : List (Point α) → List Nat → Nat)
    (fuel : Nat) (st st_err : kmedians α) (msg : String)
    (h : process gm fuel st = .error (msg, st_err)) :
    st_err = st ∧ get_clusters st_err = get_clusters st ∧
    get_centers st_err = get_centers st ∧
    (∀ (d c : List (Point α)) (t : α), st = kmedians_init d c t →
      get_clusters st_err = [] ∧ get_centers st_err = c) := by
  have heq := process_error_state gm fuel st msg st_err h
  subst heq
  refine ⟨rfl, rfl, rfl, ?_⟩
  rintro d c t rfl
  exact ⟨rfl, rfl⟩

/-- Witness for C9 on a dimension-mismatched engine. -/
theorem process_error_leaves_state_unchanged_witness :
    mismatch_engine = mismatch_engine ∧
    get_clusters mismatch_engine = get_clusters mismatch_engine ∧
    get_centers mismatch_engine = get_centers mismatch_engine ∧
    (∀ (d c : List (Point ℤ)) (t : ℤ), mismatch_engine = kmedians_init d c t →
      get_clusters mismatch_engine = [] ∧ get_centers mismatch_engine = c) :=
  process_error_leaves_state_unchanged geometric_median 3 mismatch_engine
    mismatch_engine dimension_mismatch_msg (by decide)

/-- C10: `process` is a deterministic function of the constructed inputs: two
engines built from equal datasets, equal initial centers and equal tolerances
produce equal outcomes under the same collaborator, and when both runs
terminate they yield equal clusters and equal centers. -/
theorem process_deterministic (gm : List (Point α) → List Nat → Nat)
    (d1 d2 c1 c2 : List (Point α)) (t1 t2 : α) (fuel : Nat)
    (hd : d1 = d2) (hc : c1 = c2) (ht : t1 = t2) :
    process gm fuel (kmedians_init d1 c1 t1) = process gm fuel (kmedians_init d2 c2 t2) ∧
    (∀ st1' st2', process gm fuel (kmedians_init d1 c1 t1) = .ok (some st1') →
      process gm fuel (kmedians_init d2 c2 t2) = .ok (some st2') →
      get_clusters st1' = get_clusters st2' ∧ get_centers st1' = get_centers st2') := by
  subst hd
  subst hc
  subst ht
  refine ⟨rfl, ?_⟩
  intro st1' st2' h1 h2
  have h12 := h1.symm.trans h2
  simp only [Except.ok.injEq, Option.some.injEq] at h12
  rw [h12]
  exact ⟨rfl, rfl⟩

/-- Witness for C10 on two identically constructed `pair_data` engines. -/
theorem process_deterministic_witness :
    process geometric_median 2 (kmedians_init pair_data pair_centers (1 : ℤ)) =
      process geometric_median 2 (kmedians_init pair_data pair_centers (1 : ℤ)) ∧
    (∀ st1' st2',
      process geometric_median 2 (kmedians_init pair_data pair_centers (1 : ℤ)) = .ok (some st1') →
      process geometric_median 2 (kmedians_init pair_data pair_centers (1 : ℤ)) = .ok (some st2') →
      get_clusters st1' = get_clusters st2' ∧ get_centers st1' = get_centers st2') :=
  process_deterministic geometric_median pair_data pair_data pair_centers pair_centers
    1 1 2 rfl rfl rfl

end Claims

end PyClustering
